import Mathlib

/-!
Shallow embedding of the yelp scraper (src/main.py) and proofs of the
specification's claims about it.

Modelling conventions, used throughout:

* A scraped document is represented by the lists of matches that each of the
  program's fixed selector expressions produces on it.  `.get(default="")`
  on a selector result is the head of the match list with `""` as fallback;
  `.get()` without a default is the head as an `Option` (Python `None` when
  the match list is empty); `.getall()` is the whole match list.
* Python exceptions are an `Except String` result; the string names the
  Python exception class that the corresponding statement would raise
  (`StopIteration` for an exhausted `next`, `KeyError` for a missing dict
  key, `AttributeError` for a method call on `None`).
* Python `str.strip` / `str.lower` are modelled character-exactly on the
  ASCII range (`Char.isWhitespace` matches Python's notion on the
  whitespace that occurs in scraped text; `Char.toLower` lower-cases basic
  latin letters and fixes everything else).
* Python dicts keep insertion order: assigning to a fresh key appends, and
  assigning to an existing key overwrites in place.  The `dict` built by
  `parse_company` and the `open_hours` dict are association lists with that
  update rule.
* `urlencode` and f-string URL formatting are injective on the varying
  query parameters, so a request URL is modelled as the record of its
  varying parameters (keyword, location, start offset, business id).
-/

namespace YelpScraper

/-- Python `str.strip()` on the character list of a string: whitespace is
removed from the front and from the back. -/
def pyStripL (l : List Char) : List Char :=
  List.rdropWhile Char.isWhitespace (List.dropWhile Char.isWhitespace l)

/-- Python `str.strip()`. -/
def pyStrip (s : String) : String := ⟨pyStripL s.data⟩

/-- Python `str.lower()`, character by character (ASCII model). -/
def pyLower (s : String) : String := ⟨s.data.map Char.toLower⟩

/-- Python `range(start, stop, step)` for a positive `step`, as the ordered
list it enumerates: `start`, `start + step`, … strictly below `stop`. -/
def pyRange (start stop step : Nat) : List Nat :=
  (List.range ((stop - start + (step - 1)) / step)).map (fun i => start + step * i)

/-- The subsequent-page offsets of the search call site:
`range(10, search_meta["totalResults"], 10)` (src/main.py line 72). -/
def search_offsets (totalResults : Nat) : List Nat :=
  pyRange 10 totalResults 10

/-- The subsequent-page offsets of the review call site:
`range(10, total_reviews + 10, 10)` (src/main.py line 121). -/
def review_offsets (total_reviews : Nat) : List Nat :=
  pyRange 10 (total_reviews + 10) 10

/-- A search URL built by `create_search_url` (src/main.py lines 53-64),
as the record of its varying query parameters; the fixed boilerplate
parameters never vary and are omitted. -/
structure SearchUrl where
  find_desc : String
  find_loc : String
  start : Nat
deriving DecidableEq, Repr

/-- Builds the URL for a single page of yelp search (src/main.py
lines 53-64). -/
def create_search_url (keyword location : String) (offset : Nat := 0) : SearchUrl :=
  { find_desc := keyword, find_loc := location, start := offset }

/-- The subsequent-page request list of `search_yelp` (src/main.py
line 72): one URL per offset in `range(10, totalResults, 10)`. -/
def search_other_urls (keyword location : String) (totalResults : Nat) : List SearchUrl :=
  (search_offsets totalResults).map (fun page => create_search_url keyword location page)

/-- A review-feed URL (src/main.py lines 117-122), as the record of its
varying parameters. -/
structure ReviewFeedUrl where
  business_id : String
  start : Nat
deriving DecidableEq, Repr

/-- The subsequent-page request list of `scrape_reviews` (src/main.py
lines 117-122): one URL per offset in `range(10, total_reviews + 10, 10)`. -/
def review_to_scrape (business_id : String) (total_reviews : Nat) : List ReviewFeedUrl :=
  (review_offsets total_reviews).map (fun offset => { business_id := business_id, start := offset })

/-- The pagination metadata record's `"props"` value, of which the program
only ever reads `totalResults` (src/main.py lines 17, 72). -/
structure SearchMeta where
  totalResults : Nat
deriving DecidableEq, Repr

/-- One entry of `searchPageProps.mainContentComponentsListProps` as
`parse_search` (src/main.py lines 9-18) inspects it: the truthiness of the
`searchResultBusiness` and `adLoggingInfo` entries (`r.get(k)` is falsy
when the key is absent or its value is empty), the optional `type` string,
and the optional `props` payload (absent when the dict has no such key). -/
structure SearchRecord where
  searchResultBusiness : Bool
  adLoggingInfo : Bool
  type : Option String
  props : Option SearchMeta
deriving DecidableEq, Repr

/-- Parses yelp search results for business results (src/main.py
lines 9-18).  The list comprehension keeps the records that have a truthy
`searchResultBusiness` and no truthy `adLoggingInfo`; `next(...)` over the
records of type `"pagination"` raises `StopIteration` when there is none,
and the `["props"]` subscript raises `KeyError` when the found record has
no `props` key. -/
def parse_search (results : List SearchRecord) :
    Except String (List SearchRecord × SearchMeta) :=
  let businesses := results.filter (fun r => r.searchResultBusiness && !r.adLoggingInfo)
  match results.find? (fun r => r.type == some "pagination") with
  | none => .error "StopIteration"
  | some r =>
    match r.props with
    | none => .error "KeyError"
    | some meta => .ok (businesses, meta)

/-- The record-merging loop shared by `search_yelp` (src/main.py
lines 70-75) and `scrape_reviews` (lines 114-126): the first page's records
start the list and each completed subsequent page's records are appended
with `.extend` in the order the client yields the pages. -/
def merge_pages {α : Type} (first : List α) (pages : List (List α)) : List α :=
  pages.foldl (fun acc page => acc ++ page) first

/-- One match of `//th/p[contains(@class,"day-of-the-week")]` in a
business-detail page (src/main.py lines 34-37), as the two selector results
`parse_company` reads from it: its own text node
(`day.xpath("text()").get()`) and the text of the paired value cell
(`day.xpath("../following-sibling::td//p/text()").get()`); each is `none`
when its selector matches nothing. -/
structure DayNode where
  text : Option String
  value : Option String
deriving DecidableEq, Repr

/-- A business-detail document as the fixed selector expressions of
`parse_company` (src/main.py lines 31-50) see it: for each selector, the
list of its matches, in document order. -/
structure CompanyDoc where
  h1_text : List String
  website_text : List String
  phone_text : List String
  address_text : List String
  logo_src : List String
  day_nodes : List DayNode
  claim_texts : List String
deriving DecidableEq, Repr

/-- The helper `xpath = lambda xp: result.selector.xpath(xp).get(default="").strip()`
of `parse_company` (src/main.py line 32), applied to a selector's match
list: first match, or `""` when there is none, then stripped. -/
def xget (ms : List String) : String := pyStrip (ms.headD "")

/-- A Python dict assignment `m[k] = v` on an insertion-ordered dict held
as an association list: an existing key keeps its position and gets the new
value, a fresh key is appended at the end. -/
def dictSet (m : List (String × String)) (k v : String) : List (String × String) :=
  if m.any (fun p => p.1 == k) then m.map (fun p => if p.1 == k then (k, v) else p)
  else m ++ [(k, v)]

/-- The `open_hours` loop of `parse_company` (src/main.py lines 33-37),
threading the dict built so far.  For each matched day node the code calls
`.strip()` on `.get()` of the two inner selectors: when either selector has
no match, `.get()` is `None` and `.strip()` raises `AttributeError`.
Otherwise `open_hours[name.lower()] = value` stores the stripped value
under the stripped, lower-cased label. -/
def parseOpenHours : List DayNode → List (String × String) →
    Except String (List (String × String))
  | [], acc => .ok acc
  | day :: rest, acc =>
    match day.text with
    | none => .error "AttributeError"
    | some t =>
      match day.value with
      | none => .error "AttributeError"
      | some v => parseOpenHours rest (dictSet acc (pyLower (pyStrip t)) (pyStrip v))

/-- The `claim_status` expression of `parse_company` (src/main.py
lines 39-41): the text of every `claim-text` span, joined with `""`,
stripped, then lower-cased. -/
def claim_status_of (d : CompanyDoc) : String :=
  pyLower (pyStrip (String.join d.claim_texts))

/-- A value of the dict returned by `parse_company`: a plain string field
or the `open_hours` sub-dict. -/
inductive FieldValue where
  | str : String → FieldValue
  | table : List (String × String) → FieldValue
deriving DecidableEq, Repr

/-- Parses a business-detail page (src/main.py lines 31-50).  The
`open_hours` loop runs first and any `AttributeError` it raises propagates;
the remaining fields come from the `xpath` lambda (`xget`) and the
`claim_status` expression, and the result is the `dict(...)` literal of
lines 42-50 in its written key order. -/
def parse_company (d : CompanyDoc) : Except String (List (String × FieldValue)) :=
  match parseOpenHours d.day_nodes [] with
  | .error e => .error e
  | .ok open_hours =>
    .ok [("name", .str (xget d.h1_text)),
         ("website", .str (xget d.website_text)),
         ("phone", .str (xget d.phone_text)),
         ("address", .str (xget d.address_text)),
         ("logo", .str (xget d.logo_src)),
         ("open_hours", .table open_hours),
         ("claim_status", .str (claim_status_of d))]

/-- The seven lower-cased weekday names, the key domain the spec asserts
for the `open_hours` mapping. -/
def weekday_names : List String :=
  ["monday", "tuesday", "wednesday", "thursday", "friday", "saturday", "sunday"]

/-! ### Character and string lemmas -/

/-- Unfolding equation of `Char.toLower`. -/
theorem char_toLower_def (c : Char) :
    Char.toLower c = if c.toNat ≥ 65 ∧ c.toNat ≤ 90 then Char.ofNat (c.toNat + 32) else c := rfl

/-- Lower-casing a character twice is the same as lower-casing it once. -/
theorem char_toLower_toLower (c : Char) :
    Char.toLower (Char.toLower c) = Char.toLower c := by
  by_cases h : c.toNat ≥ 65 ∧ c.toNat ≤ 90
  · rw [char_toLower_def c, if_pos h]
    obtain ⟨h1, h2⟩ := h
    generalize c.toNat = n at h1 h2
    interval_cases n <;> decide
  · rw [char_toLower_def c, if_neg h, char_toLower_def c, if_neg h]

/-- Lower-casing never creates and never destroys whitespace. -/
theorem isWhitespace_toLower (c : Char) :
    Char.isWhitespace (Char.toLower c) = Char.isWhitespace c := by
  by_cases h : c.toNat ≥ 65 ∧ c.toNat ≤ 90
  · rw [char_toLower_def c, if_pos h]
    have hw : Char.isWhitespace c = false := by
      simp only [Char.isWhitespace, Bool.or_eq_false_iff]
      refine ⟨⟨⟨?_, ?_⟩, ?_⟩, ?_⟩ <;>
        · simp only [decide_eq_false_iff_not]
          intro he; subst he; revert h; decide
    rw [hw]
    obtain ⟨h1, h2⟩ := h
    generalize c.toNat = n at h1 h2
    interval_cases n <;> decide
  · rw [char_toLower_def c, if_neg h]

/-- A list that drops no leading whitespace still drops none after its
trailing whitespace is removed. -/
theorem dropWhile_rdropWhile (l : List Char)
    (h : List.dropWhile Char.isWhitespace l = l) :
    List.dropWhile Char.isWhitespace (List.rdropWhile Char.isWhitespace l) =
      List.rdropWhile Char.isWhitespace l := by
  cases l with
  | nil => simp [List.rdropWhile]
  | cons c rest =>
    have hc : Char.isWhitespace c = false := by
      cases hw : Char.isWhitespace c with
      | false => rfl
      | true =>
        rw [List.dropWhile_cons, if_pos hw] at h
        have hlen := congrArg List.length h
        have hle := (List.dropWhile_suffix (l := rest) Char.isWhitespace).length_le
        simp only [List.length_cons] at hlen
        omega
    rw [List.rdropWhile, List.reverse_cons, List.dropWhile_append]
    by_cases he : (List.dropWhile Char.isWhitespace rest.reverse).isEmpty
    · rw [if_pos he]
      simp [List.dropWhile_cons, hc]
    · rw [if_neg he]
      rw [List.reverse_append, List.reverse_singleton, List.singleton_append,
        List.dropWhile_cons, hc]
      simp

/-- Python `strip` is idempotent on character lists. -/
theorem pyStripL_idem (l : List Char) : pyStripL (pyStripL l) = pyStripL l := by
  unfold pyStripL
  rw [dropWhile_rdropWhile _ (List.dropWhile_idempotent _ _),
    List.rdropWhile_idempotent]

/-- Python `strip` is idempotent. -/
theorem pyStrip_idem (s : String) : pyStrip (pyStrip s) = pyStrip s := by
  unfold pyStrip
  exact congrArg String.mk (pyStripL_idem s.data)

/-- Lower-casing commutes with stripping on character lists, because
whitespace is exactly preserved. -/
theorem pyStripL_map_toLower (l : List Char) :
    pyStripL (l.map Char.toLower) = (pyStripL l).map Char.toLower := by
  have hws : (Char.isWhitespace ∘ Char.toLower) = Char.isWhitespace := by
    funext c; exact isWhitespace_toLower c
  unfold pyStripL
  rw [List.dropWhile_map, hws, List.rdropWhile, List.rdropWhile, ← List.map_reverse,
    List.dropWhile_map, hws, ← List.map_reverse]

/-- Python `lower` commutes with `strip`. -/
theorem pyStrip_pyLower (s : String) : pyStrip (pyLower s) = pyLower (pyStrip s) := by
  unfold pyStrip pyLower
  exact congrArg String.mk (pyStripL_map_toLower s.data)

/-- Python `lower` is idempotent. -/
theorem pyLower_idem (s : String) : pyLower (pyLower s) = pyLower s := by
  unfold pyLower
  refine congrArg String.mk ?_
  rw [List.map_map]
  exact List.map_congr_left fun c _ => char_toLower_toLower c

/-- A lower-cased stripped string is still stripped. -/
theorem pyStrip_pyLower_pyStrip (s : String) :
    pyStrip (pyLower (pyStrip s)) = pyLower (pyStrip s) := by
  rw [pyStrip_pyLower, pyStrip_idem]

/-! ### Paginator lemmas -/

/-- Membership in a `pyRange` that starts at its own step 10, as the
multiples of 10 below the stop value. -/
theorem mem_pyRange_ten (stop m : Nat) :
    m ∈ pyRange 10 stop 10 ↔ ∃ k, 1 ≤ k ∧ m = 10 * k ∧ m < stop := by
  simp only [pyRange, List.mem_map, List.mem_range]
  constructor
  · rintro ⟨i, hi, rfl⟩
    exact ⟨i + 1, by omega, by omega, by omega⟩
  · rintro ⟨k, hk, rfl, hm⟩
    exact ⟨k - 1, by omega, by omega⟩

/-- Offsets of a positive-step `pyRange` are strictly increasing. -/
theorem pyRange_pairwise (start stop step : Nat) (hs : 0 < step) :
    (pyRange start stop step).Pairwise (· < ·) := by
  unfold pyRange
  exact (List.pairwise_lt_range _).map _
    (fun a b h => Nat.add_lt_add_left (mul_lt_mul_of_pos_left h hs) start)

/-! ### Dict and open-hours lemmas -/

/-- The keys of a dict after an assignment: unchanged when the key was
present, the key appended when it was fresh. -/
theorem keys_dictSet (m : List (String × String)) (k v : String) :
    (dictSet m k v).map Prod.fst =
      if m.any (fun p => p.1 == k) then m.map Prod.fst
      else m.map Prod.fst ++ [k] := by
  unfold dictSet
  by_cases h : m.any (fun p => p.1 == k)
  · rw [if_pos h, if_pos h, List.map_map]
    refine List.map_congr_left fun p hp => ?_
    simp only [Function.comp_apply]
    by_cases hk : p.1 == k
    · rw [if_pos hk]
      exact (eq_of_beq hk).symm
    · rw [if_neg hk]
  · rw [if_neg h, if_neg h, List.map_append]
    rfl

/-- Every key after an assignment is an old key or the assigned key. -/
theorem mem_keys_dictSet {m : List (String × String)} {k v a : String}
    (h : a ∈ (dictSet m k v).map Prod.fst) :
    a ∈ m.map Prod.fst ∨ a = k := by
  rw [keys_dictSet] at h
  by_cases hc : m.any (fun p => p.1 == k)
  · rw [if_pos hc] at h
    exact .inl h
  · rw [if_neg hc] at h
    rcases List.mem_append.1 h with h | h
    · exact .inl h
    · exact .inr (List.mem_singleton.1 h)

/-- Assignment keeps the keys of a dict without repetition. -/
theorem nodup_keys_dictSet {m : List (String × String)} {k v : String}
    (h : (m.map Prod.fst).Nodup) :
    ((dictSet m k v).map Prod.fst).Nodup := by
  rw [keys_dictSet]
  by_cases hc : m.any (fun p => p.1 == k)
  · rw [if_pos hc]
    exact h
  · rw [if_neg hc]
    rw [List.nodup_append]
    refine ⟨h, List.nodup_singleton k, fun a ha hb => ?_⟩
    rw [List.mem_singleton] at hb
    subst hb
    rw [List.any_eq_true] at hc
    obtain ⟨p, hp, hpk⟩ := List.mem_map.1 ha
    exact hc ⟨p, hp, by simp [hpk]⟩

/-- The open-hours loop returns (rather than raising `AttributeError`)
exactly when every matched day node has both its text node and its paired
value node. -/
theorem parseOpenHours_isOk (days : List DayNode) :
    ∀ acc, (parseOpenHours days acc).isOk = true ↔
      ∀ dn ∈ days, dn.text ≠ none ∧ dn.value ≠ none := by
  induction days with
  | nil =>
    intro acc
    simp [parseOpenHours, Except.isOk, Except.toBool]
  | cons day rest ih =>
    intro acc
    cases ht : day.text with
    | none => simp [parseOpenHours, ht, Except.isOk, Except.toBool]
    | some t =>
      cases hv : day.value with
      | none => simp [parseOpenHours, ht, hv, Except.isOk, Except.toBool]
      | some v => simp [parseOpenHours, ht, hv, ih]

/-- The open-hours loop never repeats a key. -/
theorem parseOpenHours_ok_nodup (days : List DayNode) :
    ∀ acc oh, parseOpenHours days acc = .ok oh →
      (acc.map Prod.fst).Nodup → (oh.map Prod.fst).Nodup := by
  induction days with
  | nil =>
    intro acc oh h hn
    simp only [parseOpenHours, Except.ok.injEq] at h
    exact h ▸ hn
  | cons day rest ih =>
    intro acc oh h hn
    cases ht : day.text with
    | none => simp [parseOpenHours, ht] at h
    | some t =>
      cases hv : day.value with
      | none => simp [parseOpenHours, ht, hv] at h
      | some v =>
        simp only [parseOpenHours, ht, hv] at h
        exact ih _ _ h (nodup_keys_dictSet hn)

/-- Every key produced by the open-hours loop is an initial key or the
stripped, lower-cased text of one of the matched day nodes. -/
theorem parseOpenHours_ok_keys (days : List DayNode) :
    ∀ acc oh, parseOpenHours days acc = .ok oh →
      ∀ a ∈ oh.map Prod.fst, a ∈ acc.map Prod.fst ∨
        ∃ dn ∈ days, ∃ t, dn.text = some t ∧ a = pyLower (pyStrip t) := by
  induction days with
  | nil =>
    intro acc oh h a ha
    simp only [parseOpenHours, Except.ok.injEq] at h
    exact .inl (h ▸ ha)
  | cons day rest ih =>
    intro acc oh h a ha
    cases ht : day.text with
    | none => simp [parseOpenHours, ht] at h
    | some t =>
      cases hv : day.value with
      | none => simp [parseOpenHours, ht, hv] at h
      | some v =>
        simp only [parseOpenHours, ht, hv] at h
        rcases ih _ _ h a ha with hmem | ⟨dn, hdn, t', ht', ha'⟩
        · rcases mem_keys_dictSet hmem with h1 | h2
          · exact .inl h1
          · exact .inr ⟨day, List.mem_cons_self day rest, t, ht, h2⟩
        · exact .inr ⟨dn, List.mem_cons_of_mem day hdn, t', ht', ha'⟩

/-! ### parse_company and merge lemmas -/

/-- Inversion of a successful `parse_company`: the result is the literal
seven-entry dict of src/main.py lines 42-50, around the open-hours dict the
loop produced. -/
theorem parse_company_ok_inv {d : CompanyDoc} {r : List (String × FieldValue)}
    (h : parse_company d = .ok r) :
    ∃ oh, parseOpenHours d.day_nodes [] = .ok oh ∧
      r = [("name", .str (xget d.h1_text)),
           ("website", .str (xget d.website_text)),
           ("phone", .str (xget d.phone_text)),
           ("address", .str (xget d.address_text)),
           ("logo", .str (xget d.logo_src)),
           ("open_hours", .table oh),
           ("claim_status", .str (claim_status_of d))] := by
  unfold parse_company at h
  cases hoh : parseOpenHours d.day_nodes [] with
  | error e => rw [hoh] at h; exact absurd h (by simp)
  | ok oh =>
    rw [hoh] at h
    simp only [Except.ok.injEq] at h
    exact ⟨oh, rfl, h.symm⟩

/-- The run of `parse_company` succeeds exactly when its open-hours loop
does: nothing after the loop can raise. -/
theorem parse_company_isOk (d : CompanyDoc) :
    (parse_company d).isOk = (parseOpenHours d.day_nodes []).isOk := by
  unfold parse_company
  cases hoh : parseOpenHours d.day_nodes [] <;> simp [Except.isOk, Except.toBool]

/-- The merging loop is concatenation: first-page records first, then each
later page's records in the order the pages were yielded. -/
theorem merge_pages_eq {α : Type} (first : List α) (pages : List (List α)) :
    merge_pages first pages = first ++ pages.flatten := by
  induction pages generalizing first with
  | nil => simp [merge_pages]
  | cons p ps ih =>
    show merge_pages (first ++ p) ps = _
    rw [ih, List.flatten_cons, List.append_assoc]

/-- Inversion of a successful `parse_search`: the business list is the
ad-free filter of the records, and the metadata is the `props` of the first
record of type `"pagination"`. -/
theorem parse_search_ok_inv {results businesses : List SearchRecord} {meta : SearchMeta}
    (h : parse_search results = .ok (businesses, meta)) :
    businesses = results.filter (fun r => r.searchResultBusiness && !r.adLoggingInfo) ∧
    ∃ r, results.find? (fun r => r.type == some "pagination") = some r ∧
      r.props = some meta := by
  cases hf : results.find? (fun r => r.type == some "pagination") with
  | none => simp [parse_search, hf] at h
  | some r0 =>
    cases hp : r0.props with
    | none => simp [parse_search, hf, hp] at h
    | some m =>
      simp only [parse_search, hf, hp, Except.ok.injEq, Prod.mk.injEq] at h
      exact ⟨h.1.symm, r0, rfl, by rw [hp, h.2]⟩

/-! ### The claims -/

/-- C1: for every non-negative total, the paginator's offsets are the
strictly increasing multiples of the page size 10 starting at 10, strictly
below the total at the search call site and strictly below `total + 10` at
the review call site (the spec's "inclusive up to total+10" boundary); in
particular for total = 25 the search offsets are [10, 20] and the review
offsets are [10, 20, 30]. -/
theorem C1_paginator_offsets (total : Nat) :
    (search_offsets total).Pairwise (· < ·) ∧
    (review_offsets total).Pairwise (· < ·) ∧
    (∀ m, m ∈ search_offsets total ↔ ∃ k, 1 ≤ k ∧ m = 10 * k ∧ m < total) ∧
    (∀ m, m ∈ review_offsets total ↔ ∃ k, 1 ≤ k ∧ m = 10 * k ∧ m < total + 10) ∧
    search_offsets 25 = [10, 20] ∧ review_offsets 25 = [10, 20, 30] :=
  ⟨pyRange_pairwise 10 total 10 (by omega),
   pyRange_pairwise 10 (total + 10) 10 (by omega),
   fun m => mem_pyRange_ten total m,
   fun m => mem_pyRange_ten (total + 10) m,
   by decide, by decide⟩

/-- C2 counterexample: a document whose only anomaly is a missing node — a
matched day-of-the-week label with no text node — makes `parse_company`
raise `AttributeError` (`None.strip()`), so extraction is not
exception-free for all missing-node documents. -/
theorem C2_counterexample :
    parse_company { h1_text := [], website_text := [], phone_text := [],
                    address_text := [], logo_src := [],
                    day_nodes := [{ text := none, value := none }],
                    claim_texts := [] } = .error "AttributeError" := rfl

/-- C2 amended: every field read through the defaulted getter degrades to
the empty string when its selector has no match, an unmatched claim node
gives the empty claim status, and the open-hours sub-mapping only ever
holds keys coming from actually matched day labels; but `parse_company`
returns (rather than raising `AttributeError`) if and only if every
matched day node has both its own text node and its paired value node. -/
theorem C2_missing_fields_degrade (d : CompanyDoc) :
    ((parse_company d).isOk = true ↔
      ∀ dn ∈ d.day_nodes, dn.text ≠ none ∧ dn.value ≠ none) ∧
    ∀ r, parse_company d = .ok r →
      (d.h1_text = [] → r.lookup "name" = some (.str "")) ∧
      (d.website_text = [] → r.lookup "website" = some (.str "")) ∧
      (d.phone_text = [] → r.lookup "phone" = some (.str "")) ∧
      (d.address_text = [] → r.lookup "address" = some (.str "")) ∧
      (d.logo_src = [] → r.lookup "logo" = some (.str "")) ∧
      (d.claim_texts = [] → r.lookup "claim_status" = some (.str "")) ∧
      ∃ oh, r.lookup "open_hours" = some (.table oh) ∧
        ∀ a ∈ oh.map Prod.fst, ∃ dn ∈ d.day_nodes, ∃ t, dn.text = some t ∧
          a = pyLower (pyStrip t) := by
  constructor
  · rw [parse_company_isOk]
    exact parseOpenHours_isOk d.day_nodes []
  · intro r h
    obtain ⟨oh, hoh, hrr⟩ := parse_company_ok_inv h
    subst hrr
    have hcs : d.claim_texts = [] → claim_status_of d = "" := by
      intro he; unfold claim_status_of; rw [he]; rfl
    refine ⟨fun he => by rw [he]; rfl, fun he => by rw [he]; rfl,
      fun he => by rw [he]; rfl, fun he => by rw [he]; rfl,
      fun he => by rw [he]; rfl, fun he => ?_, oh, rfl, ?_⟩
    · have h1 : List.lookup "claim_status"
          [("name", FieldValue.str (xget d.h1_text)),
           ("website", FieldValue.str (xget d.website_text)),
           ("phone", FieldValue.str (xget d.phone_text)),
           ("address", FieldValue.str (xget d.address_text)),
           ("logo", FieldValue.str (xget d.logo_src)),
           ("open_hours", FieldValue.table oh),
           ("claim_status", FieldValue.str (claim_status_of d))] =
          some (.str (claim_status_of d)) := rfl
      rw [h1, hcs he]
    · intro a ha
      rcases parseOpenHours_ok_keys d.day_nodes [] oh hoh a ha with hmem | hday
      · simp at hmem
      · exact hday

/-- C3: the record merge of the aggregation step is exactly concatenation —
the first page's records followed by each yielded page's records — and it
preserves the multiplicity of every record, so the merge neither drops nor
adds nor deduplicates anything. -/
theorem C3_merge_is_concatenation (first : List SearchRecord)
    (pages : List (List SearchRecord)) :
    merge_pages first pages = first ++ pages.flatten ∧
    ∀ r : SearchRecord, (merge_pages first pages).count r =
      first.count r + (pages.map (List.count r)).sum := by
  refine ⟨merge_pages_eq first pages, fun r => ?_⟩
  rw [merge_pages_eq, List.count_append, List.count_flatten]

/-- C4 counterexample: a document missing the claim-status text node on
which `parse_company` nevertheless fails, because one of its matched day
labels has no paired value node. -/
theorem C4_counterexample :
    (({ h1_text := [], website_text := [], phone_text := [],
        address_text := [], logo_src := [],
        day_nodes := [{ text := some "Monday", value := none }],
        claim_texts := [] } : CompanyDoc).claim_texts = []) ∧
    parse_company { h1_text := [], website_text := [], phone_text := [],
                    address_text := [], logo_src := [],
                    day_nodes := [{ text := some "Monday", value := none }],
                    claim_texts := [] } = .error "AttributeError" :=
  ⟨rfl, rfl⟩

/-- C4 amended: on every document missing the claim-status text node the
claim-status extraction yields the empty string and itself cannot fail, and
whenever `parse_company` returns on such a document its `claim_status`
field is the empty string; `parse_company` as a whole can still raise, but
only out of the open-hours loop. -/
theorem C4_missing_claim_node (d : CompanyDoc) (h : d.claim_texts = []) :
    claim_status_of d = "" ∧
    ∀ r, parse_company d = .ok r → r.lookup "claim_status" = some (.str "") := by
  have hcs : claim_status_of d = "" := by
    unfold claim_status_of; rw [h]; rfl
  refine ⟨hcs, fun r hr => ?_⟩
  obtain ⟨oh, hoh, hrr⟩ := parse_company_ok_inv hr
  subst hrr
  have h1 : List.lookup "claim_status"
      [("name", FieldValue.str (xget d.h1_text)),
       ("website", FieldValue.str (xget d.website_text)),
       ("phone", FieldValue.str (xget d.phone_text)),
       ("address", FieldValue.str (xget d.address_text)),
       ("logo", FieldValue.str (xget d.logo_src)),
       ("open_hours", FieldValue.table oh),
       ("claim_status", FieldValue.str (claim_status_of d))] =
      some (.str (claim_status_of d)) := rfl
  rw [h1, hcs]

/-- C4 witness: the amended theorem applied to the empty document. -/
theorem C4_witness :
    claim_status_of (⟨[], [], [], [], [], [], []⟩ : CompanyDoc) = "" :=
  (C4_missing_claim_node _ rfl).1

/-- C5: for every business-detail document whose matched day labels are
weekday names (what an open-hours table contains), the `open_hours`
sub-mapping of a successful `parse_company` has pairwise distinct keys, at
most 7 entries, and every key is a lower-cased weekday name obtained by
lower-casing the stripped label of one of the matched label/value pairs. -/
theorem C5_open_hours_weekdays (d : CompanyDoc) (r : List (String × FieldValue))
    (hok : parse_company d = .ok r)
    (hweek : ∀ dn ∈ d.day_nodes, ∀ t, dn.text = some t →
      pyLower (pyStrip t) ∈ weekday_names) :
    ∃ oh, r.lookup "open_hours" = some (.table oh) ∧
      (oh.map Prod.fst).Nodup ∧ oh.length ≤ 7 ∧
      ∀ p ∈ oh, p.1 ∈ weekday_names ∧
        ∃ dn ∈ d.day_nodes, ∃ t, dn.text = some t ∧ p.1 = pyLower (pyStrip t) := by
  obtain ⟨oh, hoh, hrr⟩ := parse_company_ok_inv hok
  subst hrr
  have hnodup : (oh.map Prod.fst).Nodup :=
    parseOpenHours_ok_nodup d.day_nodes [] oh hoh (by simp)
  have hkeys : ∀ a ∈ oh.map Prod.fst,
      ∃ dn ∈ d.day_nodes, ∃ t, dn.text = some t ∧ a = pyLower (pyStrip t) := by
    intro a ha
    rcases parseOpenHours_ok_keys d.day_nodes [] oh hoh a ha with hmem | hday
    · simp at hmem
    · exact hday
  have hsub : ∀ a ∈ oh.map Prod.fst, a ∈ weekday_names := by
    intro a ha
    obtain ⟨dn, hdn, t, ht, rfl⟩ := hkeys a ha
    exact hweek dn hdn t ht
  refine ⟨oh, rfl, hnodup, ?_, ?_⟩
  · have hcard : (oh.map Prod.fst).toFinset.card = (oh.map Prod.fst).length :=
      List.toFinset_card_of_nodup hnodup
    have hmono : (oh.map Prod.fst).toFinset ⊆ weekday_names.toFinset := by
      intro a ha
      rw [List.mem_toFinset] at ha ⊢
      exact hsub a ha
    have hle := Finset.card_le_card hmono
    have hw : weekday_names.toFinset.card ≤ 7 := by decide
    have hlen : (oh.map Prod.fst).length = oh.length := List.length_map oh Prod.fst
    omega
  · intro p hp
    have hmem : p.1 ∈ oh.map Prod.fst := List.mem_map_of_mem Prod.fst hp
    exact ⟨hsub p.1 hmem, hkeys p.1 hmem⟩

/-- C5 witness: the theorem applied to a one-row open-hours table. -/
theorem C5_witness :
    ∃ oh, List.lookup "open_hours"
        [("name", FieldValue.str ""), ("website", FieldValue.str ""),
         ("phone", FieldValue.str ""), ("address", FieldValue.str ""),
         ("logo", FieldValue.str ""),
         ("open_hours", FieldValue.table [("monday", "9 AM")]),
         ("claim_status", FieldValue.str "")] = some (.table oh) ∧
      (oh.map Prod.fst).Nodup ∧ oh.length ≤ 7 ∧
      ∀ p ∈ oh, p.1 ∈ weekday_names ∧
        ∃ dn ∈ (⟨[], [], [], [], [],
            [⟨some " Monday ", some " 9 AM "⟩], []⟩ : CompanyDoc).day_nodes,
          ∃ t, dn.text = some t ∧ p.1 = pyLower (pyStrip t) :=
  C5_open_hours_weekdays ⟨[], [], [], [], [], [⟨some " Monday ", some " 9 AM "⟩], []⟩
    [("name", .str ""), ("website", .str ""), ("phone", .str ""),
     ("address", .str ""), ("logo", .str ""),
     ("open_hours", .table [("monday", "9 AM")]), ("claim_status", .str "")]
    rfl
    (by
      intro dn hdn t ht
      rw [List.mem_singleton] at hdn
      subst hdn
      injection ht with h
      subst h
      decide)

/-- C6: a first page reporting `totalResults = 0` yields an empty offset
sequence and an empty subsequent-request list at both the search call site
and the review call site, so no subsequent-page fetch occurs. -/
theorem C6_total_zero_no_fetches (keyword location business_id : String) :
    search_offsets 0 = [] ∧ search_other_urls keyword location 0 = [] ∧
    review_offsets 0 = [] ∧ review_to_scrape business_id 0 = [] :=
  ⟨rfl, rfl, rfl, rfl⟩

/-- C7 counterexample: a record list that does contain a record of type
`"pagination"` on which `parse_search` nevertheless raises (`KeyError`),
because that record has no `props` entry — so success is not equivalent to
the existence of a pagination record. -/
theorem C7_counterexample :
    (({ searchResultBusiness := false, adLoggingInfo := false,
        type := some "pagination", props := none } : SearchRecord).type =
      some "pagination") ∧
    parse_search [{ searchResultBusiness := false, adLoggingInfo := false,
                    type := some "pagination", props := none }] =
      .error "KeyError" :=
  ⟨rfl, rfl⟩

/-- C7 amended: when no record has type `"pagination"`, `parse_search`
raises `StopIteration` (the run terminates, no default is returned); and
`parse_search` succeeds if and only if the first record of type
`"pagination"` exists and itself carries a `props` entry (otherwise the
`["props"]` subscript raises `KeyError`). -/
theorem C7_pagination_record_required (results : List SearchRecord) :
    ((∀ r ∈ results, r.type ≠ some "pagination") →
      parse_search results = .error "StopIteration") ∧
    ((parse_search results).isOk = true ↔
      ∃ r, results.find? (fun r => r.type == some "pagination") = some r ∧
        r.props.isSome = true) := by
  constructor
  · intro hall
    have hnone : results.find? (fun r => r.type == some "pagination") = none :=
      List.find?_eq_none.2 fun x hx => by simpa using hall x hx
    simp [parse_search, hnone]
  · cases hf : results.find? (fun r => r.type == some "pagination") with
    | none => simp [parse_search, hf, Except.isOk, Except.toBool]
    | some r0 =>
      cases hp : r0.props with
      | none => simp [parse_search, hf, hp, Except.isOk, Except.toBool]
      | some m => simp [parse_search, hf, hp, Except.isOk, Except.toBool]

/-- C8: every business record of a successful `parse_search` comes from the
ad filter: the preview list is exactly the records with a truthy
`searchResultBusiness` and no truthy `adLoggingInfo`, so advertisement
entries are silently dropped. -/
theorem C8_ads_filtered_out (results businesses : List SearchRecord)
    (meta : SearchMeta) (h : parse_search results = .ok (businesses, meta)) :
    businesses = results.filter (fun r => r.searchResultBusiness && !r.adLoggingInfo) ∧
    ∀ r ∈ businesses, r.searchResultBusiness = true ∧ r.adLoggingInfo = false := by
  have hb := (parse_search_ok_inv h).1
  refine ⟨hb, fun r hr => ?_⟩
  rw [hb] at hr
  have hp := (List.mem_filter.1 hr).2
  simp only [Bool.and_eq_true, Bool.not_eq_true'] at hp
  exact hp

/-- C8 witness: the theorem applied to a two-record page. -/
theorem C8_witness :
    ([⟨true, false, none, none⟩] : List SearchRecord) =
      List.filter (fun r => r.searchResultBusiness && !r.adLoggingInfo)
        [⟨true, false, none, none⟩,
         ⟨false, false, some "pagination", some ⟨25⟩⟩] ∧
    ∀ r ∈ ([⟨true, false, none, none⟩] : List SearchRecord),
      r.searchResultBusiness = true ∧ r.adLoggingInfo = false :=
  C8_ads_filtered_out
    [⟨true, false, none, none⟩, ⟨false, false, some "pagination", some ⟨25⟩⟩]
    [⟨true, false, none, none⟩] ⟨25⟩ rfl

/-- C9: whenever `parse_company` returns, the returned dict has exactly the
seven keys name, website, phone, address, logo, open_hours, claim_status in
that order, and every string-valued field is whitespace-stripped. -/
theorem C9_company_dict_shape (d : CompanyDoc) (r : List (String × FieldValue))
    (h : parse_company d = .ok r) :
    r.map Prod.fst = ["name", "website", "phone", "address", "logo",
      "open_hours", "claim_status"] ∧
    ∀ p ∈ r, ∀ s, p.2 = FieldValue.str s → pyStrip s = s := by
  obtain ⟨oh, hoh, hrr⟩ := parse_company_ok_inv h
  subst hrr
  refine ⟨rfl, ?_⟩
  intro p hp s hs
  simp only [List.mem_cons, List.not_mem_nil, or_false] at hp
  rcases hp with rfl | rfl | rfl | rfl | rfl | rfl | rfl
  · injection hs with h'; subst h'; exact pyStrip_idem _
  · injection hs with h'; subst h'; exact pyStrip_idem _
  · injection hs with h'; subst h'; exact pyStrip_idem _
  · injection hs with h'; subst h'; exact pyStrip_idem _
  · injection hs with h'; subst h'; exact pyStrip_idem _
  · exact absurd hs (by simp)
  · injection hs with h'
    subst h'
    unfold claim_status_of
    exact pyStrip_pyLower_pyStrip _

/-- C9 witness: the theorem applied to the empty document. -/
theorem C9_witness :
    List.map Prod.fst
      [("name", FieldValue.str ""), ("website", FieldValue.str ""),
       ("phone", FieldValue.str ""), ("address", FieldValue.str ""),
       ("logo", FieldValue.str ""), ("open_hours", FieldValue.table []),
       ("claim_status", FieldValue.str "")] =
      ["name", "website", "phone", "address", "logo", "open_hours",
       "claim_status"] :=
  (C9_company_dict_shape ⟨[], [], [], [], [], [], []⟩
    [("name", .str ""), ("website", .str ""), ("phone", .str ""),
     ("address", .str ""), ("logo", .str ""), ("open_hours", .table []),
     ("claim_status", .str "")] rfl).1

/-- C10: the `claim_status` field of a successful `parse_company` is the
join of the text of all matched claim-text nodes — not only the first —
stripped and then lower-cased, and it is always lower-cased (lower-casing
it again changes nothing). -/
theorem C10_claim_status_joined_lowered (d : CompanyDoc)
    (r : List (String × FieldValue)) (h : parse_company d = .ok r) :
    r.lookup "claim_status" =
      some (.str (pyLower (pyStrip (String.join d.claim_texts)))) ∧
    ∀ s, r.lookup "claim_status" = some (.str s) → pyLower s = s := by
  obtain ⟨oh, hoh, hrr⟩ := parse_company_ok_inv h
  subst hrr
  have h1 : List.lookup "claim_status"
      [("name", FieldValue.str (xget d.h1_text)),
       ("website", FieldValue.str (xget d.website_text)),
       ("phone", FieldValue.str (xget d.phone_text)),
       ("address", FieldValue.str (xget d.address_text)),
       ("logo", FieldValue.str (xget d.logo_src)),
       ("open_hours", FieldValue.table oh),
       ("claim_status", FieldValue.str (claim_status_of d))] =
      some (.str (claim_status_of d)) := rfl
  refine ⟨rfl, fun s hs => ?_⟩
  rw [h1] at hs
  simp only [Option.some.injEq, FieldValue.str.injEq] at hs
  subst hs
  unfold claim_status_of
  exact pyLower_idem _

/-- C10 witness: the theorem applied to a document with two claim-text
matches. -/
theorem C10_witness :
    List.lookup "claim_status"
      [("name", FieldValue.str ""), ("website", FieldValue.str ""),
       ("phone", FieldValue.str ""), ("address", FieldValue.str ""),
       ("logo", FieldValue.str ""), ("open_hours", FieldValue.table []),
       ("claim_status", FieldValue.str "claimed by owner")] =
      some (.str (pyLower (pyStrip
        (String.join ["Claimed", " BY owner "])))) :=
  (C10_claim_status_joined_lowered
    ⟨[], [], [], [], [], [], ["Claimed", " BY owner "]⟩
    [("name", .str ""), ("website", .str ""), ("phone", .str ""),
     ("address", .str ""), ("logo", .str ""), ("open_hours", .table []),
     ("claim_status", .str "claimed by owner")] rfl).1

end YelpScraper
